import Mathlib

/-!
Verification of the `nepal-haversack` route tree (`src/locator/al-route.types.ts`).

This file is a shallow embedding of the `AlRoute` class and its helpers from
`al-route.types.ts`, together with theorems settling the frozen claims about it.

Modelling conventions:
* JavaScript strings are Lean `String`s; `indexOf(x) === 0` becomes a
  prefix test on the character lists; `null` coerced into a string position
  becomes the literal `"null"` (ECMAScript `ToString(null)`).
* Nullable fields (`string|null`, optional interface members) are `Option`s.
* JS truthiness is modelled explicitly where the source relies on it:
  an absent member or `null` or `""` is falsy, any object or array
  (including the empty array) is truthy.
* Recursive interface types (`AlRouteCondition`, `AlRouteDefinition`) and the
  runtime `AlRoute` tree are mutual inductives with their own list (and, where
  the source member is optional, option-like) types, so that every function is
  structurally recursive and computable by `decide`/`rfl`.
* The locator registry (`AlLocatorMatrix`, a separate source file) enters this
  code only through `host.locator.getNode`, and JS `RegExp.test` only in the
  `matches` branch of `evaluateActivation`; both are modelled as function
  fields of the host, universally quantified in the theorems.
* The property maps (`{[key:string]:any}`) are association lists with string
  values; the `undefined` "no value" sentinel of `setProperty` is `none`.
* `refresh`'s early `return;` (which returns `undefined`, a falsy value
  distinct from the declared `boolean`) is modelled by a second component
  `Bool` of the result: `true` means the early return was taken.  The
  `activated` field itself can only ever be read through truthiness in the
  source (`!x`, `x || y`), so it is modelled as a `Bool`.
* Bubbling (`this.parent.activated = ...; this.parent.href = ...`) writes to
  the parent; inside a whole-tree refresh the parent applies those writes
  while folding over its children.  The bubbled `activated` is always
  overwritten afterwards by `this.activated = childActivated` (or by the
  early-return branch), so only the bubbled `href` is threaded through.
* The `children.reduce( (activated, child) => activated || child.refresh(resolve), false )`
  fold uses the short-circuiting JS `||`: as soon as one child's refresh
  returns truthy, the REMAINING children are not refreshed at all.  The
  embedding models this faithfully (see `refreshChildren`).
-/

/-- First-match association-list lookup, modelling JS object property read. -/
def lookupProp : List (String × String) → String → Option String
  | [], _ => none
  | p :: rest, key => if p.1 = key then some p.2 else lookupProp rest key

/-- JS object property assignment: overwrite if present, append otherwise. -/
def insertProp (ps : List (String × String)) (key val : String) : List (String × String) :=
  if (lookupProp ps key).isSome then
    ps.map (fun p => if p.1 = key then (key, val) else p)
  else
    ps ++ [(key, val)]

/-- JS `delete obj[key]`. -/
def eraseProp (ps : List (String × String)) (key : String) : List (String × String) :=
  ps.filter (fun p => p.1 ≠ key)

/-- `url.indexOf(prefixStr) === 0`: does `s` start with `p`? -/
def strStartsWith (s p : String) : Bool :=
  List.isPrefixOf p.toList s.toList

/-- ECMAScript coercion of a possibly-`null` string into a string position
(`"" + null === "null"`, and `indexOf(null)` searches for `"null"`). -/
def jsOptStr : Option String → String
  | none => "null"
  | some s => s

/-- JS falsiness of a `string|null` value: `null` and `""` are falsy. -/
def strFalsy : Option String → Bool
  | none => true
  | some s => s = ""

/-- `href.indexOf('?') === -1 ? href : href.substring(0, href.indexOf('?'))`. -/
def stripQuery (s : String) : String :=
  String.mk (s.toList.takeWhile (fun c => c ≠ '?'))

/-- `.replace("/", "\\/")` on a character list: escape only the FIRST slash
(string-argument `String.prototype.replace` replaces one occurrence). -/
def replaceFirstSlashAux : List Char → List Char
  | [] => []
  | c :: rest => if c = '/' then '\\' :: '/' :: rest else c :: replaceFirstSlashAux rest

def replaceFirstSlash (s : String) : String :=
  String.mk (replaceFirstSlashAux s.toList)

/-- Characters matched by `[a-zA-Z_]` in the route-parameter token regex
`/\:[a-zA-Z_]+/g` (note: no digits). -/
def isTokenChar (c : Char) : Bool :=
  ('a' ≤ c && c ≤ 'z') || ('A' ≤ c && c ≤ 'Z') || c = '_'

/-- Flush a pending `:`-prefixed token accumulator (`acc`, reversed) in
front of an already-processed suffix: an empty accumulator was a literal
`:` with no token characters after it (the regex needs at least one), so it
is emitted verbatim; a nonempty token is replaced by the matching route
parameter's value, or — when no parameter exists — kept as the literal
`:token` text with the `missing` flag raised (the replacement callback's
`missing = true; return ":" + variableId;`). -/
def flushTok (params : List (String × String)) (acc : List Char)
    (r : Bool × List Char) : Bool × List Char :=
  match acc with
  | [] => (r.1, ':' :: r.2)
  | _ :: _ =>
    let tok := acc.reverse
    match lookupProp params (String.mk tok) with
    | some v => (r.1, v.toList ++ r.2)
    | none => (true, ':' :: (tok ++ r.2))

/-- The body of `path.replace( /\:[a-zA-Z_]+/g, match => ... )` from
`evaluateHref`, as a single structural left-to-right pass.  The mode
argument is `none` while scanning literal text and `some acc` after a `:`,
with `acc` holding the (reversed) token characters read so far.  Because
`:` is not a token character, the regex's matches (`:` plus a maximal
nonempty run of `[a-zA-Z_]`) never overlap, so this pass performs exactly
the global replacement: each maximal token run is flushed through
`flushTok` when a non-token character or the end of input ends it, and a
`:` ending a run immediately opens the next candidate match.  Returns
`(missing, substituted characters)`. -/
def substPathAux (params : List (String × String)) :
    Option (List Char) → List Char → Bool × List Char
  | none, [] => (false, [])
  | none, c :: rest =>
    if c = ':' then substPathAux params (some []) rest
    else
      let r := substPathAux params none rest
      (r.1, c :: r.2)
  | some acc, [] => flushTok params acc (false, [])
  | some acc, c :: rest =>
    if isTokenChar c then substPathAux params (some (c :: acc)) rest
    else if c = ':' then flushTok params acc (substPathAux params (some []) rest)
    else
      let r := substPathAux params none rest
      flushTok params acc (r.1, c :: r.2)

def substPath (params : List (String × String)) (path : String) : Bool × String :=
  let r := substPathAux params none path.toList
  (r.1, String.mk r.2)

/-! ## Data model (`AlRouteCondition`, `AlRouteAction`, `AlRouteDefinition`) -/

/-! `AlRouteCondition`: a tree of conditions.  `rule` is the optional member
`rule?:string`, `conditionList` the optional member
`conditions?:AlRouteCondition[]`, `entitlements` the optional member
`entitlements?:string`, `routeParamList` the member `parameters:string[]`.
The optional condition list and the list itself are part of the mutual
group so that all recursion stays structural. -/
mutual

/-- A condition node: `rule?`, `conditions?`, `entitlements?`, `parameters`. -/
inductive AlRouteCondition : Type where
  | mk : Option String → AlRouteConditionsOpt → Option String → List String → AlRouteCondition

/-- Presence or absence of the `conditions` member (`undefined` vs an array;
an EMPTY array is present, and truthy, in JS). -/
inductive AlRouteConditionsOpt : Type where
  | absent : AlRouteConditionsOpt
  | present : AlRouteConditionList → AlRouteConditionsOpt

inductive AlRouteConditionList : Type where
  | nil : AlRouteConditionList
  | cons : AlRouteCondition → AlRouteConditionList → AlRouteConditionList

end

def AlRouteCondition.rule : AlRouteCondition → Option String
  | .mk r _ _ _ => r

def AlRouteCondition.conditionList : AlRouteCondition → AlRouteConditionsOpt
  | .mk _ cs _ _ => cs

def AlRouteCondition.entitlements : AlRouteCondition → Option String
  | .mk _ _ e _ => e

/-- `condition.conditions` is present (and hence truthy, arrays always are). -/
def AlRouteConditionsOpt.isPresent : AlRouteConditionsOpt → Bool
  | .absent => false
  | .present _ => true

/-- `condition.conditions.length`, counted by the `forEach` as `total`. -/
def AlRouteConditionList.length : AlRouteConditionList → Nat
  | .nil => 0
  | .cons _ rest => 1 + rest.length

/-- The action of a route (`AlRouteAction`): `type`, and the optional
`location`, `path` and `trigger` members. -/
structure AlRouteAction : Type where
  type : String
  location : Option String
  path : Option String
  trigger : Option String

/-! `AlRouteDefinition`, the immutable input tree.  Field order:
`id`, `caption`, `properties`, `action`, `visible`, `matches`, `children`,
`bubble`.  The optional child list is its own option-like type (mutual
group) so recursion over definitions is structural. -/
mutual

/-- A route definition node. -/
inductive AlRouteDefinition : Type where
  | mk : Option String → String → List (String × String) → Option AlRouteAction →
         Option AlRouteCondition → Option (List String) → AlRouteChildrenOpt →
         Option Bool → AlRouteDefinition

inductive AlRouteChildrenOpt : Type where
  | absent : AlRouteChildrenOpt
  | present : AlRouteDefinitionList → AlRouteChildrenOpt

inductive AlRouteDefinitionList : Type where
  | nil : AlRouteDefinitionList
  | cons : AlRouteDefinition → AlRouteDefinitionList → AlRouteDefinitionList

end

def AlRouteDefinition.id : AlRouteDefinition → Option String
  | .mk i _ _ _ _ _ _ _ => i

def AlRouteDefinition.caption : AlRouteDefinition → String
  | .mk _ c _ _ _ _ _ _ => c

def AlRouteDefinition.properties : AlRouteDefinition → List (String × String)
  | .mk _ _ p _ _ _ _ _ => p

def AlRouteDefinition.action : AlRouteDefinition → Option AlRouteAction
  | .mk _ _ _ a _ _ _ _ => a

def AlRouteDefinition.visibleCondition : AlRouteDefinition → Option AlRouteCondition
  | .mk _ _ _ _ v _ _ _ => v

def AlRouteDefinition.matches : AlRouteDefinition → Option (List String)
  | .mk _ _ _ _ _ m _ _ => m

def AlRouteDefinition.childrenOpt : AlRouteDefinition → AlRouteChildrenOpt
  | .mk _ _ _ _ _ _ cs _ => cs

def AlRouteDefinition.bubble : AlRouteDefinition → Option Bool
  | .mk _ _ _ _ _ _ _ b => b

/-- Truthiness of `this.definition.bubble` (`bubble?:boolean`). -/
def bubbleTruthy : Option Bool → Bool
  | some true => true
  | _ => false

/-- `this.definition.action && this.definition.action.type === 'link'`. -/
def isLinkAction (d : AlRouteDefinition) : Bool :=
  match d.action with
  | some a => a.type = "link"
  | none => false

/-! ## The routing host contract (`AlRoutingHost`) -/

/-- The only part of a locator descriptor that `al-route.types.ts` reads:
its `uri`. -/
structure AlLocatorNode : Type where
  uri : String

/-- The host contract.  `currentUrl`, `routeParameters` and `evaluate` are
the members of `AlRoutingHost`; `getNode` stands for
`host.locator.getNode` (the `AlLocatorMatrix` lives in a different source
file; here it is an opaque resolver from an optional logical location id to
a descriptor or `null`); `regexTest pattern input` stands for
`new RegExp(pattern).test(input)` used by the `matches` branch of
`evaluateActivation`.  `dispatch` is never called inside this module and is
omitted. -/
structure AlRoutingHost : Type where
  currentUrl : String
  routeParameters : List (String × String)
  evaluate : AlRouteCondition → Bool
  getNode : Option String → Option AlLocatorNode
  regexTest : String → String → Bool

/-! ## `evaluateCondition` -/

/-! `AlRoute.evaluateCondition`:
`if (condition.rule && condition.conditions)` — the rule string must be
truthy (present and nonempty) and the conditions member present (arrays,
even empty, are truthy) — count `total`/`passed` over the children,
then test `passed` according to the rule, any unrecognized rule falling to
the `passed === 0` branch; otherwise delegate the whole condition to
`host.evaluate`. -/
mutual

/-- The condition evaluator of `AlRoute` (see the section comment above). -/
def evaluateCondition (host : AlRoutingHost) : AlRouteCondition → Bool
  | .mk (some r) (.present cs) ent ps =>
    if r ≠ "" then
      let total := cs.length
      let passed := countPassed host cs
      if r = "any" then decide (passed > 0)
      else if r = "all" then decide (passed = total)
      else decide (passed = 0)
    else
      host.evaluate (.mk (some r) (.present cs) ent ps)
  | c => host.evaluate c

/-- The `forEach` accumulation of `passed` in `evaluateCondition`. -/
def countPassed (host : AlRoutingHost) : AlRouteConditionList → Nat
  | .nil => 0
  | .cons c rest => (if evaluateCondition host c then 1 else 0) + countPassed host rest

end

/-! ## The runtime route tree (`AlRoute`) -/

/-! An `AlRoute` node carries, in this order: its `definition`, `caption`,
`visible` (initially `true`), `activated` (initially `false`),
`properties` (the overlay seeded from `definition.properties`),
`baseHREF` (initially `null`), `href` (initially `null`), and its owned,
ordered `children`.  The `parent` back-reference of the source cannot live
inside a purely functional tree; a node's parent is the node that owns it,
and the bubbling writes into the parent are performed by the parent's own
refresh while it folds over its children (exactly where they happen at
runtime).  The `host` reference is passed to each operation instead of
being stored. -/
mutual

/-- A runtime route node (see the section comment above). -/
inductive AlRoute : Type where
  | mk : AlRouteDefinition → String → Bool → Bool → List (String × String) →
         Option String → Option String → AlRouteList → AlRoute

inductive AlRouteList : Type where
  | nil : AlRouteList
  | cons : AlRoute → AlRouteList → AlRouteList

end

def AlRoute.definition : AlRoute → AlRouteDefinition
  | .mk d _ _ _ _ _ _ _ => d

def AlRoute.caption : AlRoute → String
  | .mk _ c _ _ _ _ _ _ => c

def AlRoute.visible : AlRoute → Bool
  | .mk _ _ v _ _ _ _ _ => v

def AlRoute.activated : AlRoute → Bool
  | .mk _ _ _ a _ _ _ _ => a

def AlRoute.properties : AlRoute → List (String × String)
  | .mk _ _ _ _ p _ _ _ => p

def AlRoute.baseHREF : AlRoute → Option String
  | .mk _ _ _ _ _ b _ _ => b

def AlRoute.href : AlRoute → Option String
  | .mk _ _ _ _ _ _ h _ => h

def AlRoute.children : AlRoute → AlRouteList
  | .mk _ _ _ _ _ _ _ cs => cs

/-! ## Property overlay (`setProperty` / `deleteProperty` / `getProperty`) -/

/-- `AlRoute.deleteProperty`: if the immutable `definition.properties` has
the key, restore that value into the overlay, else remove the overlay
entry.  (The `this.definition.properties && ...` guard is the truthiness of
a required object member, always true here.) -/
def deleteProperty (r : AlRoute) (propName : String) : AlRoute :=
  match r with
  | .mk d cap vis act props base href cs =>
    match lookupProp d.properties propName with
    | some v => .mk d cap vis act (insertProp props propName v) base href cs
    | none => .mk d cap vis act (eraseProp props propName) base href cs

/-- `AlRoute.setProperty`: the `undefined` sentinel (`none`) behaves as
delete, any other value overwrites the overlay entry. -/
def setProperty (r : AlRoute) (propName : String) (value : Option String) : AlRoute :=
  match value with
  | none => deleteProperty r propName
  | some v =>
    match r with
    | .mk d cap vis act props base href cs =>
      .mk d cap vis act (insertProp props propName v) base href cs

/-- `AlRoute.getProperty`: overlay value if the key is present, else the
supplied default (`null` by default, hence the `Option` result). -/
def getProperty (r : AlRoute) (propName : String) (defaultValue : Option String) : Option String :=
  match lookupProp r.properties propName with
  | some v => some v
  | none => defaultValue

/-! ## `evaluateHref` and `evaluateActivation` -/

/-- `let path = action.path ? action.path : ''` — the truthiness default of
`evaluateHref` (an empty string is falsy, so the branch result is the same
string either way). -/
def actionPath (action : AlRouteAction) : String :=
  match action.path with
  | some p => if p = "" then "" else p
  | none => ""

/-- `AlRoute.evaluateHref`, as a function of the current `baseHREF`/`href`
fields: on an unknown location it only logs a warning and returns `false`,
leaving both fields untouched; otherwise it writes
`baseHREF = node.uri` and `href = baseHREF + substitutedPath` and returns
`!missing`.  Result: `(baseHREF', href', returned boolean)`. -/
def evaluateHref (host : AlRoutingHost) (action : AlRouteAction)
    (base href : Option String) : Option String × Option String × Bool :=
  match host.getNode action.location with
  | none => (base, href, false)
  | some node =>
    let sub := substPath host.routeParameters (actionPath action)
    (some node.uri, some (node.uri ++ sub.2), !sub.1)

/-- `AlRoute.evaluateActivation`, as a function of the node's `matches`
patterns and current `baseHREF`/`href` (with `activated` known to be
`false` at the call site, see `refresh`): a falsy `href` never activates;
otherwise, if `currentUrl` starts with `baseHREF` (JS coerces a `null`
`baseHREF` to the string `"null"`), the node is activated when the
query-stripped `href` and `currentUrl` are mutual prefixes (i.e. equal), or
when any `matches` entry, compiled as `"^" + baseHREF + pattern + "$"` with
only its first `/` escaped, regex-matches `currentUrl`. -/
def evaluateActivation (host : AlRoutingHost) (ms : Option (List String))
    (base href : Option String) : Bool :=
  if strFalsy href then false
  else if strStartsWith host.currentUrl (jsOptStr base) then
    let noParamsHref := stripQuery (jsOptStr href)
    if strStartsWith noParamsHref host.currentUrl && strStartsWith host.currentUrl noParamsHref then
      true
    else
      match ms with
      | some pats =>
        pats.any (fun m =>
          host.regexTest (replaceFirstSlash ("^" ++ jsOptStr base ++ m ++ "$")) host.currentUrl)
      | none => false
  else false

/-! ## `refresh` -/

/-- Step 1 of `refresh`:
`this.visible = this.definition.visible ? this.evaluateCondition( this.definition.visible ) : true`. -/
def evalVisible (host : AlRoutingHost) (d : AlRouteDefinition) : Bool :=
  match d.visibleCondition with
  | some c => evaluateCondition host c
  | none => true

/-- Apply a pending bubble update to the current `href` field:
`some v` means some non-early child with a truthy `bubble` ran
`this.parent.href = this.href` (the last such child wins), `none` means no
child bubbled and the field keeps its value. -/
def bubbleApply : Option (Option String) → Option String → Option String
  | some v, _ => v
  | none, old => old

/-- The tail of `refresh` common to every non-early path: set
`activated = childActivated`, and if that is false, run the own-URL
activation test (`evaluateActivation` only ever turns `activated` on). -/
def finishRefresh (host : AlRoutingHost) (d : AlRouteDefinition) (cap : String)
    (props : List (String × String)) (cs' : AlRouteList) (childAct : Bool)
    (visible1 : Bool) (base href : Option String) : AlRoute :=
  let act := childAct || evaluateActivation host d.matches base href
  .mk d cap visible1 act props base href cs'

/-! `AlRoute.refresh(resolve)`:
1. recompute `visible` from `definition.visible` (default `true`);
2. refresh all children, OR-ing their returned activation into
   `childActivated` and applying their bubble writes to this node's
   `activated`/`href` (the `activated` write is dead, being overwritten in
   step 4 or by the early return);
3. if `visible && (resolve || href === null)` and the action is a `link`,
   run `evaluateHref`; when it returns false set `visible = false`,
   `activated = false` and return early (the source's bare `return;`,
   i.e. `undefined`) — the second component `true` records this;
4. otherwise `activated = childActivated`, and if still false run the
   own-URL test;
5. if `definition.bubble` is truthy and a parent exists, the caller (the
   parent's step 2) ORs `activated` into the parent's `activated` and
   overwrites the parent's `href`;
6. return `activated` (second component `false`). -/
mutual

/-- One node's `refresh` (see the section comment above).  Returns the
updated node and whether the early `return;` was taken. -/
def refreshNode (host : AlRoutingHost) (resolve : Bool) : AlRoute → AlRoute × Bool
  | .mk d cap _vis _act props base href cs =>
    let visible1 := evalVisible host d
    let rc := refreshChildren host resolve cs
    let href0 := bubbleApply rc.2.2 href
    match d.action with
    | some a =>
      if visible1 && (resolve || href0.isNone) && a.type = "link" then
        let ev := evaluateHref host a base href0
        if ev.2.2 then
          (finishRefresh host d cap props rc.1 rc.2.1 visible1 ev.1 ev.2.1, false)
        else
          (.mk d cap false false props ev.1 ev.2.1 rc.1, true)
      else
        (finishRefresh host d cap props rc.1 rc.2.1 visible1 base href0, false)
    | none =>
      (finishRefresh host d cap props rc.1 rc.2.1 visible1 base href0, false)

/-- The `children.reduce( (activated, child) => activated || child.refresh(resolve), false )`
of `refresh`, threading the parent-directed bubble writes: returns the
children list after the fold, `childActivated`, and the pending overwrite
of the parent's `href` (see `bubbleApply`).  Two source behaviours are
modelled bit-for-bit: (a) a child that took the early return skips its
bubble step entirely (and its returned `undefined` is falsy, keeping the
accumulator unchanged); (b) the JS `||` SHORT-CIRCUITS — as soon as the
accumulator is truthy, `child.refresh` is no longer called, so every child
after the first one that returns truthy is left completely UNREFRESHED.
(A child's returned value equals its `activated` field: the early return
leaves the field `false` while returning `undefined`, and the normal path
returns the field.) -/
def refreshChildren (host : AlRoutingHost) (resolve : Bool) :
    AlRouteList → AlRouteList × Bool × Option (Option String)
  | .nil => (.nil, false, none)
  | .cons c rest =>
    let rc := refreshNode host resolve c
    let bubbleHere : Option (Option String) :=
      if !rc.2 && bubbleTruthy rc.1.definition.bubble then some rc.1.href else none
    if rc.1.activated then
      (.cons rc.1 rest, true, bubbleHere)
    else
      let rrest := refreshChildren host resolve rest
      (.cons rc.1 rrest.1, rrest.2.1,
        match rrest.2.2 with
        | some v => some v
        | none => bubbleHere)

end

/-! ## Construction -/

/-! The `AlRoute` constructor: store the definition, echo the caption, wire
the parent back-reference, recursively construct the children in definition
order, seed the property overlay from `definition.properties`
(`Object.assign` onto the initially empty overlay), and — exactly when the
constructing invocation has no parent (the root) — run one
`refresh(true)` over the finished tree. -/
mutual

/-- Construction of one node and its subtree, WITHOUT the root-only
refresh: this is what every child invocation (`new AlRoute(host, def, this)`)
performs.  State starts as `visible=true, activated=false, href=null,
baseHREF=null`. -/
def buildRouteTree : AlRouteDefinition → AlRoute
  | .mk i cap props act vis ms (.present cs) bub =>
    .mk (.mk i cap props act vis ms (.present cs) bub) cap true false props none none
      (buildRouteForest cs)
  | .mk i cap props act vis ms .absent bub =>
    .mk (.mk i cap props act vis ms .absent bub) cap true false props none none .nil

def buildRouteForest : AlRouteDefinitionList → AlRouteList
  | .nil => .nil
  | .cons d rest => .cons (buildRouteTree d) (buildRouteForest rest)

end

/-- Root construction (`new AlRoute(host, definition)` with `parent === null`):
build the tree, then perform the initial `refresh(true)`. -/
def newRootRoute (host : AlRoutingHost) (d : AlRouteDefinition) : AlRoute :=
  (refreshNode host true (buildRouteTree d)).1

/-! ## Conversions and auxiliary tree predicates (proof infrastructure) -/

/-- Conversion of the mutual condition list into a standard list. -/
def toListC : AlRouteConditionList → List AlRouteCondition
  | .nil => []
  | .cons c rest => c :: toListC rest

/-- Conversion of the mutual route list into a standard list. -/
def toListR : AlRouteList → List AlRoute
  | .nil => []
  | .cons r rest => r :: toListR rest

def toListDL : AlRouteDefinitionList → List AlRouteDefinition
  | .nil => []
  | .cons d rest => d :: toListDL rest

/-- Conversion of the optional definition child list into a standard list
(an absent member behaves as no children). -/
def toListD : AlRouteChildrenOpt → List AlRouteDefinition
  | .absent => []
  | .present cs => toListDL cs

/-- Positional access into a route list (`this.children[i]`). -/
def getChildAt : AlRouteList → Nat → Option AlRoute
  | .nil, _ => none
  | .cons c _, 0 => some c
  | .cons _ rest, n + 1 => getChildAt rest n

/-- The node reached from `r` by the given list of child indices. -/
def nodeAt : AlRoute → List Nat → Option AlRoute
  | r, [] => some r
  | r, i :: rest =>
    match getChildAt r.children i with
    | some c => nodeAt c rest
    | none => none

/-- Does any node of the list satisfy... this is the OR that
`childActivated` accumulates. -/
def anyActivated : AlRouteList → Bool
  | .nil => false
  | .cons c rest => c.activated || anyActivated rest

mutual

/-- Does `p` hold at every node of the subtree? -/
def allNodesB (p : AlRoute → Bool) : AlRoute → Bool
  | .mk d cap vis act props base href cs =>
    p (.mk d cap vis act props base href cs) && allNodesListB p cs

def allNodesListB (p : AlRoute → Bool) : AlRouteList → Bool
  | .nil => true
  | .cons c rest => allNodesB p c && allNodesListB p rest

end

/-! The skeleton of a route node: everything `refresh` is not allowed to
touch — the definition, the caption, the property overlay, and the
tree shape (children, identity and order).  `refresh` may mutate only the
complement: `visible`, `activated`, `href`, `baseHREF`. -/
mutual

/-- Skeleton tree (see the section comment above). -/
inductive RouteSkel : Type where
  | mk : AlRouteDefinition → String → List (String × String) → RouteSkelList → RouteSkel

inductive RouteSkelList : Type where
  | nil : RouteSkelList
  | cons : RouteSkel → RouteSkelList → RouteSkelList

end

mutual

/-- Project a route node onto its skeleton. -/
def skeletonOf : AlRoute → RouteSkel
  | .mk d cap _vis _act props _base _href cs => .mk d cap props (skeletonForest cs)

def skeletonForest : AlRouteList → RouteSkelList
  | .nil => .nil
  | .cons c rest => .cons (skeletonOf c) (skeletonForest rest)

end

/-! ## Small lemmas about the property association list -/

theorem lookupProp_map_replace (ps : List (String × String)) (k v : String) :
    lookupProp (ps.map (fun p => if p.1 = k then (k, v) else p)) k =
      if (lookupProp ps k).isSome then some v else none := by
  induction ps with
  | nil => simp [lookupProp]
  | cons p rest ih =>
    by_cases hk : p.1 = k
    · simp [lookupProp, hk]
    · simp [lookupProp, hk, ih]

theorem lookupProp_append_single (ps : List (String × String)) (k v : String)
    (h : lookupProp ps k = none) : lookupProp (ps ++ [(k, v)]) k = some v := by
  induction ps with
  | nil => simp [lookupProp]
  | cons p rest ih =>
    by_cases hk : p.1 = k
    · simp [lookupProp, hk] at h
    · simp only [lookupProp, hk, if_neg hk, List.cons_append]
      exact ih (by simpa [lookupProp, hk] using h)

theorem lookupProp_insertProp (ps : List (String × String)) (k v : String) :
    lookupProp (insertProp ps k v) k = some v := by
  unfold insertProp
  split
  · rename_i hsome
    rw [lookupProp_map_replace, if_pos hsome]
  · rename_i hnone
    exact lookupProp_append_single ps k v (by
      cases h : lookupProp ps k with
      | none => rfl
      | some v2 => rw [h] at hnone; simp at hnone)

theorem lookupProp_eraseProp (ps : List (String × String)) (k : String) :
    lookupProp (eraseProp ps k) k = none := by
  induction ps with
  | nil => simp [eraseProp, lookupProp]
  | cons p rest ih =>
    by_cases hk : p.1 = k
    · simpa [eraseProp, lookupProp, hk] using ih
    · simpa [eraseProp, lookupProp, hk] using ih

/-! ## Claim C7 — property overlay round trip -/

/-- C7: for every route node and property name, `setProperty(name, undefined)`
(the no-value sentinel) followed by `getProperty(name, default)` returns the
value of `name` in the immutable `definition.properties` when that key is
present there, and otherwise returns the supplied default. -/
theorem claim_C7_unset_restores_definition (r : AlRoute) (propName : String)
    (dflt : Option String) :
    getProperty (setProperty r propName none) propName dflt =
      (match lookupProp r.definition.properties propName with
       | some v => some v
       | none => dflt) := by
  cases r with
  | mk d cap vis act props base href cs =>
    simp only [setProperty, deleteProperty, AlRoute.definition]
    cases h : lookupProp d.properties propName with
    | some v =>
      simp only [h, getProperty, AlRoute.properties, lookupProp_insertProp]
    | none =>
      simp only [h, getProperty, AlRoute.properties, lookupProp_eraseProp]

/-! ## Claims C2 and C10 — condition evaluation -/

theorem countPassed_eq_countP (host : AlRoutingHost) :
    ∀ cs : AlRouteConditionList,
      countPassed host cs = (toListC cs).countP (evaluateCondition host)
  | .nil => by simp [countPassed, toListC]
  | .cons c rest => by
    have ih := countPassed_eq_countP host rest
    simp only [countPassed, toListC, List.countP_cons, ih]
    omega

theorem lengthC_eq : ∀ cs : AlRouteConditionList, cs.length = (toListC cs).length
  | .nil => rfl
  | .cons c rest => by
    have ih := lengthC_eq rest
    simp only [AlRouteConditionList.length, toListC, List.length_cons, ih]
    omega

/-- Shared concrete host for closed evaluations: entitlement `"a"` is the
only one granted, no locations registered, regexes never match. -/
def cHostA : AlRoutingHost :=
  { currentUrl := ""
    routeParameters := []
    evaluate := fun c => c.entitlements == some "a"
    getNode := fun _ => none
    regexTest := fun _ _ => false }

/-- C2: a condition with a truthy `rule` and a `conditions` array is decided
by counting how many children evaluate to true (`passed`) against the list
length (`total`): `rule="any"` gives `passed>0`, `rule="all"` gives
`passed==total` (so `true` on an empty list), and any other rule string —
`"none"` as well as unrecognized ones — gives `passed==0` (so `true` on an
empty list); being a total function, the evaluator raises no error on an
unrecognized rule. -/
theorem claim_C2_rule_semantics (host : AlRoutingHost) (r : String)
    (cs : AlRouteConditionList) (ent : Option String) (ps : List String)
    (hr : r ≠ "") :
    (evaluateCondition host (.mk (some r) (.present cs) ent ps) =
      (if r = "any" then decide (0 < (toListC cs).countP (evaluateCondition host))
       else if r = "all" then
         decide ((toListC cs).countP (evaluateCondition host) = (toListC cs).length)
       else decide ((toListC cs).countP (evaluateCondition host) = 0)))
    ∧ (cs = .nil → r ≠ "any" →
        evaluateCondition host (.mk (some r) (.present cs) ent ps) = true)
    ∧ (cs = .nil → r = "any" →
        evaluateCondition host (.mk (some r) (.present cs) ent ps) = false) := by
  have hmain : evaluateCondition host (.mk (some r) (.present cs) ent ps) =
      (if r = "any" then decide (0 < (toListC cs).countP (evaluateCondition host))
       else if r = "all" then
         decide ((toListC cs).countP (evaluateCondition host) = (toListC cs).length)
       else decide ((toListC cs).countP (evaluateCondition host) = 0)) := by
    simp only [evaluateCondition, if_pos hr, countPassed_eq_countP, lengthC_eq]
  refine ⟨hmain, ?_, ?_⟩
  · rintro rfl hne
    rw [hmain]
    by_cases hall : r = "all" <;> simp [hne, hall, toListC]
  · rintro rfl hany
    rw [hmain]
    simp [hany, toListC]

/-- C2 witness: an unrecognized rule string over a two-element condition
list, of which exactly one child passes, evaluates to `passed==0`, i.e.
`false`, without any error. -/
theorem claim_C2_rule_semantics_witness :
    ("frob" ≠ "") ∧
    evaluateCondition cHostA
      (.mk (some "frob")
        (.present (.cons (.mk none .absent (some "a") [])
          (.cons (.mk none .absent (some "b") []) .nil)))
        none []) = false := by
  refine ⟨by decide, ?_⟩
  have h := (claim_C2_rule_semantics cHostA "frob"
    (.cons (.mk none .absent (some "a") [])
      (.cons (.mk none .absent (some "b") []) .nil)) none [] (by decide)).1
  rw [h]
  decide

/-- C10: `evaluateCondition` treats a condition as an internal node only
when both a truthy `rule` and a `conditions` array are present; whenever
either member is absent (for example `rule="any"` with no `conditions`
array), the whole condition object is delegated to `host.evaluate` as a
leaf. -/
theorem claim_C10_internal_requires_rule_and_conditions (host : AlRoutingHost)
    (c : AlRouteCondition) :
    ((c.rule = none ∨ c.conditionList = .absent) →
      evaluateCondition host c = host.evaluate c)
    ∧ (evaluateCondition host c ≠ host.evaluate c →
        c.rule ≠ none ∧ c.conditionList ≠ .absent) := by
  cases c with
  | mk rule conds ent ps =>
    cases rule with
    | none =>
      cases conds with
      | absent => exact ⟨fun _ => by simp [evaluateCondition], fun h => absurd (by simp [evaluateCondition]) h⟩
      | present cs => exact ⟨fun _ => by simp [evaluateCondition], fun h => absurd (by simp [evaluateCondition]) h⟩
    | some r =>
      cases conds with
      | absent =>
        exact ⟨fun _ => by simp [evaluateCondition], fun h => absurd (by simp [evaluateCondition]) h⟩
      | present cs =>
        refine ⟨?_, ?_⟩
        · rintro (h | h) <;> simp [AlRouteCondition.rule, AlRouteCondition.conditionList] at h
        · intro _
          refine ⟨?_, ?_⟩ <;> simp [AlRouteCondition.rule, AlRouteCondition.conditionList]

/-- C10 witness: `rule="any"` with no `conditions` array is delegated to
the host's leaf evaluator. -/
theorem claim_C10_internal_requires_rule_and_conditions_witness :
    evaluateCondition cHostA (.mk (some "any") .absent (some "a") []) =
      cHostA.evaluate (.mk (some "any") .absent (some "a") []) :=
  (claim_C10_internal_requires_rule_and_conditions cHostA
    (.mk (some "any") .absent (some "a") [])).1 (Or.inr rfl)

/-! ## Claim C8 — construction -/

/-- The pristine state every node has right after construction and before
any refresh: `visible=true`, `activated=false`, `href=null`,
`baseHREF=null`. -/
def pristineState (n : AlRoute) : Bool :=
  n.visible && !n.activated && n.baseHREF.isNone && n.href.isNone

mutual

theorem buildRouteTree_pristine :
    ∀ d : AlRouteDefinition, allNodesB pristineState (buildRouteTree d) = true
  | .mk i cap props act vis ms (.present cs) bub => by
    have ihl := buildRouteForest_pristine cs
    simp [buildRouteTree, allNodesB, pristineState, AlRoute.visible, AlRoute.activated,
      AlRoute.baseHREF, AlRoute.href, ihl]
  | .mk i cap props act vis ms .absent bub => by
    simp [buildRouteTree, allNodesB, allNodesListB, pristineState, AlRoute.visible,
      AlRoute.activated, AlRoute.baseHREF, AlRoute.href]

theorem buildRouteForest_pristine :
    ∀ cs : AlRouteDefinitionList, allNodesListB pristineState (buildRouteForest cs) = true
  | .nil => by simp [buildRouteForest, allNodesListB]
  | .cons d rest => by
    have ih1 := buildRouteTree_pristine d
    have ih2 := buildRouteForest_pristine rest
    simp [buildRouteForest, allNodesListB, ih1, ih2]

end

theorem toListR_buildRouteForest :
    ∀ cs : AlRouteDefinitionList,
      toListR (buildRouteForest cs) = (toListDL cs).map buildRouteTree
  | .nil => by simp [buildRouteForest, toListR, toListDL]
  | .cons d rest => by
    have ih := toListR_buildRouteForest rest
    simp [buildRouteForest, toListR, toListDL, ih]

/-- C8: constructing a route from a definition recursively mirrors
`definition.children` into child nodes in the same order (each child built
by the same construction, i.e. by the constructor invoked with the
constructing node as parent — the back-reference is realised here by the
child being owned by exactly that parent subtree), echoes the caption,
seeds the property overlay from `definition.properties`, and leaves every
node of a non-root construction in the pristine un-refreshed state; exactly
the root invocation (no parent) additionally performs one
`refresh(forceResolve=true)` over the finished tree. -/
theorem claim_C8_construction_mirrors_definition (host : AlRoutingHost)
    (d : AlRouteDefinition) :
    (buildRouteTree d).definition = d
    ∧ (buildRouteTree d).caption = d.caption
    ∧ (buildRouteTree d).properties = d.properties
    ∧ toListR (buildRouteTree d).children = (toListD d.childrenOpt).map buildRouteTree
    ∧ allNodesB pristineState (buildRouteTree d) = true
    ∧ newRootRoute host d = (refreshNode host true (buildRouteTree d)).1 := by
  refine ⟨?_, ?_, ?_, ?_, buildRouteTree_pristine d, rfl⟩ <;>
    (cases d with
     | mk i cap props act vis ms co bub =>
       cases co <;>
         simp [buildRouteTree, AlRoute.definition, AlRoute.caption, AlRoute.properties,
           AlRoute.children, AlRouteDefinition.caption, AlRouteDefinition.properties,
           AlRouteDefinition.childrenOpt, toListD, toListR, toListR_buildRouteForest])

/-! ## Claim C9 — refresh touches only the mutable state fields -/

mutual

theorem skeleton_refreshNode (host : AlRoutingHost) (res : Bool) :
    ∀ r : AlRoute, skeletonOf ((refreshNode host res r).1) = skeletonOf r
  | .mk d cap vis act props base href cs => by
    have ihl := skeleton_refreshChildren host res cs
    cases hA : d.action with
    | none => simp [refreshNode, hA, finishRefresh, skeletonOf, ihl]
    | some a =>
      simp only [refreshNode, hA]
      split
      · split
        · simp [finishRefresh, skeletonOf, ihl]
        · simp [skeletonOf, ihl]
      · simp [finishRefresh, skeletonOf, ihl]

theorem skeleton_refreshChildren (host : AlRoutingHost) (res : Bool) :
    ∀ cs : AlRouteList,
      skeletonForest ((refreshChildren host res cs).1) = skeletonForest cs
  | .nil => by simp [refreshChildren, skeletonForest]
  | .cons c rest => by
    have ih1 := skeleton_refreshNode host res c
    have ih2 := skeleton_refreshChildren host res rest
    cases ha : (refreshNode host res c).1.activated <;>
      simp [refreshChildren, skeletonForest, ih1, ih2, ha]

end

/-- C9: `refresh` leaves the tree shape and the immutable data unchanged —
the definition, caption, property overlay, and the children list (same
nodes, same order) project to the same skeleton after a refresh as before,
for either value of `forceResolve`; the only fields outside the skeleton,
i.e. the only ones `refresh` can mutate, are `visible`, `activated`,
`href` and `baseHREF` (plus, through a child's bubble step, the parent's
`activated`/`href`, which are among those same four fields of the
parent). -/
theorem claim_C9_refresh_preserves_skeleton (host : AlRoutingHost) (res : Bool)
    (r : AlRoute) :
    skeletonOf ((refreshNode host res r).1) = skeletonOf r :=
  skeleton_refreshNode host res r

/-! ## Claims C3, C4, C5 — href resolution inside `refresh` -/

/-- C4: for a visible link node whose location resolves, `refresh` sets
`baseHREF` to the resolved descriptor's `uri` and `href` to
`baseHREF + path`, where every `:name` token of `action.path` has been
substituted with `routeParameters[name]` and a token with no corresponding
parameter is kept as the literal unsubstituted token text (see
`substPathAux`); when any substitution failed, `visible` is forced to
`false` while `href` still receives the full string with the literal
token (it is not nulled), and when none failed the node stays visible. -/
theorem claim_C4_link_resolution_and_substitution (host : AlRoutingHost)
    (res : Bool) (d : AlRouteDefinition) (cap : String) (vis act : Bool)
    (props : List (String × String)) (base href : Option String)
    (cs : AlRouteList) (a : AlRouteAction) (node : AlLocatorNode)
    (hA : d.action = some a) (hT : a.type = "link")
    (hV : evalVisible host d = true)
    (hN : host.getNode a.location = some node)
    (hcond : (res || (bubbleApply (refreshChildren host res cs).2.2 href).isNone) = true) :
    (refreshNode host res (.mk d cap vis act props base href cs)).1.baseHREF = some node.uri
    ∧ (refreshNode host res (.mk d cap vis act props base href cs)).1.href =
        some (node.uri ++ (substPath host.routeParameters (actionPath a)).2)
    ∧ ((substPath host.routeParameters (actionPath a)).1 = true →
        (refreshNode host res (.mk d cap vis act props base href cs)).1.visible = false)
    ∧ ((substPath host.routeParameters (actionPath a)).1 = false →
        (refreshNode host res (.mk d cap vis act props base href cs)).1.visible = true) := by
  simp only [refreshNode, hA, hV, hT, hcond, Bool.true_and, Bool.and_true, decide_True,
    evaluateHref, hN]
  cases hS : (substPath host.routeParameters (actionPath a)).1 with
  | true =>
    simp [AlRoute.baseHREF, AlRoute.href, AlRoute.visible]
  | false =>
    simp [finishRefresh, AlRoute.baseHREF, AlRoute.href, AlRoute.visible, hV]

/-- Shared concrete host with one registered location `"app"` at uri
`"https://a"`, one route parameter, and `currentUrl = "https://a/c"`. -/
def wHostL : AlRoutingHost :=
  { currentUrl := "https://a/c"
    routeParameters := [("accountId", "2")]
    evaluate := fun _ => false
    getNode := fun loc => if loc = some "app" then some ⟨"https://a"⟩ else none
    regexTest := fun _ _ => false }

def wActC4 : AlRouteAction := ⟨"link", some "app", some "/#/p/:nope/q", none⟩

def wDefC4 : AlRouteDefinition :=
  .mk none "n" [] (some wActC4) none none .absent none

/-- C4 witness: with route parameters `{accountId: "2"}` the token `:nope`
has no parameter; refresh keeps the literal token in `href` and forces the
node invisible. -/
theorem claim_C4_link_resolution_and_substitution_witness :
    (substPath wHostL.routeParameters (actionPath wActC4)).1 = true
    ∧ (refreshNode wHostL true (.mk wDefC4 "n" true false [] none none .nil)).1.href =
        some "https://a/#/p/:nope/q"
    ∧ (refreshNode wHostL true (.mk wDefC4 "n" true false [] none none .nil)).1.visible = false := by
  have h := claim_C4_link_resolution_and_substitution wHostL true wDefC4 "n" true false
    [] none none .nil wActC4 ⟨"https://a"⟩ rfl rfl rfl rfl rfl
  refine ⟨by decide, ?_, h.2.2.1 (by decide)⟩
  rw [h.2.1]
  rfl

/-- C3 (amended): a refresh of a visible link node whose location the
registry does not resolve yields `visible=false` and `activated=false` and
raises nothing, but `baseHREF` and `href` are left UNTOUCHED by this node
(`evaluateHref` returns before writing them): `baseHREF` keeps its prior
value, `href` keeps its prior value apart from a possible bubble overwrite
by a child; in particular on a node whose state is still pristine (as after
construction, when nothing bubbles) both remain `null`. -/
theorem claim_C3_unknown_location_degrades (host : AlRoutingHost)
    (res : Bool) (d : AlRouteDefinition) (cap : String) (vis act : Bool)
    (props : List (String × String)) (base href : Option String)
    (cs : AlRouteList) (a : AlRouteAction)
    (hA : d.action = some a) (hT : a.type = "link")
    (hV : evalVisible host d = true)
    (hN : host.getNode a.location = none)
    (hcond : (res || (bubbleApply (refreshChildren host res cs).2.2 href).isNone) = true) :
    (refreshNode host res (.mk d cap vis act props base href cs)).1.visible = false
    ∧ (refreshNode host res (.mk d cap vis act props base href cs)).1.activated = false
    ∧ (refreshNode host res (.mk d cap vis act props base href cs)).1.baseHREF = base
    ∧ (refreshNode host res (.mk d cap vis act props base href cs)).1.href =
        bubbleApply (refreshChildren host res cs).2.2 href
    ∧ (base = none → href = none → (refreshChildren host res cs).2.2 = none →
        (refreshNode host res (.mk d cap vis act props base href cs)).1.baseHREF = none
        ∧ (refreshNode host res (.mk d cap vis act props base href cs)).1.href = none) := by
  simp only [refreshNode, hA, hV, hT, hcond, Bool.true_and, Bool.and_true, decide_True,
    evaluateHref, hN]
  refine ⟨rfl, rfl, rfl, rfl, ?_⟩
  rintro rfl rfl hbu
  simp [AlRoute.baseHREF, AlRoute.href, hbu, bubbleApply]

/-- Host under which `"app"` resolves to `"https://old"`. -/
def staleHostA : AlRoutingHost :=
  { currentUrl := ""
    routeParameters := []
    evaluate := fun _ => false
    getNode := fun loc => if loc = some "app" then some ⟨"https://old"⟩ else none
    regexTest := fun _ _ => false }

/-- The same registry after the `"app"` location disappears. -/
def staleHostB : AlRoutingHost :=
  { currentUrl := ""
    routeParameters := []
    evaluate := fun _ => false
    getNode := fun _ => none
    regexTest := fun _ _ => false }

def staleAct : AlRouteAction := ⟨"link", some "app", some "/x", none⟩

def staleDef : AlRouteDefinition :=
  .mk none "n" [] (some staleAct) none none .absent none

/-- C3 counterexample: a node constructed while `"app"` resolved (so its
`href` became `"https://old/x"`) and refreshed after the location
disappeared keeps its stale non-null `href` — the claim's
`href=null, baseHREF=null` is false for it, although its action is a link
referencing a location the registry does not resolve. -/
theorem claim_C3_counterexample :
    staleHostB.getNode staleAct.location = none
    ∧ (newRootRoute staleHostA staleDef).href = some "https://old/x"
    ∧ (refreshNode staleHostB true (newRootRoute staleHostA staleDef)).1.visible = false
    ∧ (refreshNode staleHostB true (newRootRoute staleHostA staleDef)).1.href =
        some "https://old/x"
    ∧ (refreshNode staleHostB true (newRootRoute staleHostA staleDef)).1.baseHREF =
        some "https://old" := by
  exact ⟨rfl, rfl, rfl, rfl, rfl⟩

/-- C3 witness: on a freshly constructed node (pristine `null` fields) the
amended claim yields the original claim's `visible=false`, `href=null`,
`baseHREF=null`. -/
theorem claim_C3_unknown_location_degrades_witness :
    (refreshNode staleHostB true (.mk staleDef "n" true false [] none none .nil)).1.visible = false
    ∧ (refreshNode staleHostB true (.mk staleDef "n" true false [] none none .nil)).1.baseHREF = none
    ∧ (refreshNode staleHostB true (.mk staleDef "n" true false [] none none .nil)).1.href = none := by
  have h := claim_C3_unknown_location_degrades staleHostB true staleDef "n" true false
    [] none none .nil staleAct rfl rfl rfl rfl rfl
  exact ⟨h.1, (h.2.2.2.2 rfl rfl rfl).1, (h.2.2.2.2 rfl rfl rfl).2⟩

/-- C5 (amended): the early return of `refresh` is taken whenever
`evaluateHref()` returns false — not only for an unresolved location but
ALSO when the location resolves and a parameter substitution fails.  In
the failed-substitution case the node still receives the computed
`baseHREF`/`href` (with the literal token), but `visible` and `activated`
are forced to `false` regardless of the children's activation, the
own-URL match and the bubble step are skipped (second conjunct: such a
child never contributes a bubble overwrite to its parent), and the method
returns the falsy `undefined` (the `true` early flag) instead of
`activated`. -/
theorem claim_C5_shortcircuit_on_failed_substitution (host : AlRoutingHost)
    (d : AlRouteDefinition) (cap : String) (vis act : Bool)
    (props : List (String × String)) (base href : Option String)
    (cs : AlRouteList) (a : AlRouteAction) (node : AlLocatorNode)
    (hA : d.action = some a) (hT : a.type = "link")
    (hV : evalVisible host d = true)
    (hN : host.getNode a.location = some node)
    (hM : (substPath host.routeParameters (actionPath a)).1 = true) :
    refreshNode host true (.mk d cap vis act props base href cs) =
      (.mk d cap false false props (some node.uri)
        (some (node.uri ++ (substPath host.routeParameters (actionPath a)).2))
        (refreshChildren host true cs).1, true)
    ∧ (∀ rest : AlRouteList,
        (refreshChildren host true (.cons (.mk d cap vis act props base href cs) rest)).2.2 =
          (refreshChildren host true rest).2.2) := by
  have h1 : refreshNode host true (.mk d cap vis act props base href cs) =
      (.mk d cap false false props (some node.uri)
        (some (node.uri ++ (substPath host.routeParameters (actionPath a)).2))
        (refreshChildren host true cs).1, true) := by
    simp only [refreshNode, hA, hV, hT, Bool.true_or, Bool.and_true, Bool.true_and,
      decide_True, evaluateHref, hN]
    simp [hM]
  refine ⟨h1, ?_⟩
  intro rest
  simp only [refreshChildren, h1]
  cases hb : (refreshChildren host true rest).2.2 <;>
    simp [AlRoute.activated, hb]

/-- Host for the C5 scenario: `"app"` resolves to `"https://a"`, there are
no route parameters, and the current URL is the child's link target. -/
def cHost5 : AlRoutingHost :=
  { currentUrl := "https://a/c"
    routeParameters := []
    evaluate := fun _ => false
    getNode := fun loc => if loc = some "app" then some ⟨"https://a"⟩ else none
    regexTest := fun _ _ => false }

def rootAct5 : AlRouteAction := ⟨"link", some "app", some "/x/:nope", none⟩

def childDef5 : AlRouteDefinition :=
  .mk none "c" [] (some ⟨"link", some "app", some "/c", none⟩) none none .absent none

def rootDef5 : AlRouteDefinition :=
  .mk none "root" [] (some rootAct5) none none
    (.present (.cons childDef5 .nil)) none

/-- C5 counterexample: the root's location RESOLVES but its path contains
the parameterless token `:nope`; its child is activated (the child's
refresh returns true), yet after refresh the root has `activated = false`
and its refresh returned the early flag — refuting the claim that for a
resolving link node with a failed substitution, refresh still sets
`activated` to the OR of the children's returned activation, still bubbles
and still returns `activated`. -/
theorem claim_C5_counterexample :
    cHost5.getNode rootAct5.location = some ⟨"https://a"⟩
    ∧ (substPath cHost5.routeParameters (actionPath rootAct5)).1 = true
    ∧ (match (newRootRoute cHost5 rootDef5).children with
       | .cons c _ => c.activated
       | .nil => false) = true
    ∧ (newRootRoute cHost5 rootDef5).activated = false
    ∧ (refreshNode cHost5 true (buildRouteTree rootDef5)).2 = true :=
  ⟨rfl, rfl, rfl, rfl, rfl⟩

/-- C5 witness: the amended claim applied to the same concrete scenario. -/
theorem claim_C5_shortcircuit_on_failed_substitution_witness :
    (substPath cHost5.routeParameters (actionPath rootAct5)).1 = true
    ∧ (refreshNode cHost5 true (.mk rootDef5 "root" true false [] none none
        (.cons (buildRouteTree childDef5) .nil))).2 = true
    ∧ (refreshNode cHost5 true (.mk rootDef5 "root" true false [] none none
        (.cons (buildRouteTree childDef5) .nil))).1.activated = false := by
  have h := claim_C5_shortcircuit_on_failed_substitution cHost5 rootDef5 "root" true false
    [] none none (.cons (buildRouteTree childDef5) .nil) rootAct5 ⟨"https://a"⟩
    rfl rfl rfl rfl rfl
  refine ⟨rfl, ?_, ?_⟩
  · rw [h.1]
  · rw [h.1]
    rfl

/-! ## Claim C6 — idempotence of `refresh(true)` -/

theorem bubbleApply_bubbleApply (b : Option (Option String)) (x : Option String) :
    bubbleApply b (bubbleApply b x) = bubbleApply b x := by
  cases b <;> rfl

mutual

theorem refreshNode_idem (host : AlRoutingHost) :
    ∀ r : AlRoute,
      refreshNode host true ((refreshNode host true r).1) = refreshNode host true r
  | .mk d cap vis act props base href cs => by
    have ihl := refreshChildren_idem host cs
    cases hA : d.action with
    | none =>
      simp only [refreshNode, hA, finishRefresh, ihl, bubbleApply_bubbleApply]
    | some a =>
      cases hg : (evalVisible host d && decide (a.type = "link")) with
      | true =>
        cases hN : host.getNode a.location with
        | none =>
          simp only [refreshNode, hA, Bool.true_or, Bool.true_and, Bool.and_true, hg,
            evaluateHref, hN, if_true, if_false, Bool.false_eq_true, ihl,
            bubbleApply_bubbleApply, finishRefresh]
        | some node =>
          cases hS : (substPath host.routeParameters (actionPath a)).1 with
          | true =>
            simp only [refreshNode, hA, Bool.true_or, Bool.true_and, Bool.and_true, hg,
              evaluateHref, hN, hS, if_true, if_false, Bool.not_true, Bool.false_eq_true,
              ihl, bubbleApply_bubbleApply, finishRefresh]
          | false =>
            simp only [refreshNode, hA, Bool.true_or, Bool.true_and, Bool.and_true, hg,
              evaluateHref, hN, hS, if_true, Bool.not_false, ihl,
              bubbleApply_bubbleApply, finishRefresh]
      | false =>
        simp [refreshNode, hA, hg, finishRefresh, ihl, bubbleApply_bubbleApply]

theorem refreshChildren_idem (host : AlRoutingHost) :
    ∀ cs : AlRouteList,
      refreshChildren host true ((refreshChildren host true cs).1) =
        refreshChildren host true cs
  | .nil => by simp [refreshChildren]
  | .cons c rest => by
    have ih1 := refreshNode_idem host c
    have ih2 := refreshChildren_idem host rest
    cases ha : (refreshNode host true c).1.activated <;>
      simp [refreshChildren, ih1, ih2, ha]

end

/-- C6: under a fixed host state (fixed `currentUrl`, `routeParameters`,
`evaluate` results and registry contents), `refresh(true)` is idempotent —
running it a second time on the already-refreshed tree reproduces the
identical tree (every node's `visible`, `activated`, `href`, `baseHREF`,
and all immutable data) and the identical return value. -/
theorem claim_C6_refresh_true_idempotent (host : AlRoutingHost) (r : AlRoute) :
    refreshNode host true ((refreshNode host true r).1) = refreshNode host true r :=
  refreshNode_idem host r

/-! ## Claim C1 — activation propagation and unrelated siblings -/

/-- Does `evaluateHref` fail for this action under this host — either the
location does not resolve or some path-parameter substitution is missing?
(The returned flag of `evaluateHref` does not depend on the node's current
`baseHREF`/`href`.) -/
def hrefResolutionFails (host : AlRoutingHost) (a : AlRouteAction) : Bool :=
  match host.getNode a.location with
  | none => true
  | some _ => (substPath host.routeParameters (actionPath a)).1

/-- Under `refresh(true)` a node takes the early return exactly when it is
visible, its action is a link, and `evaluateHref` fails; with
`forceResolve=true` this depends only on the host and the node's
definition. -/
def shortCircuitsOn (host : AlRoutingHost) (d : AlRouteDefinition) : Bool :=
  evalVisible host d &&
    (match d.action with
     | some a => decide (a.type = "link") && hrefResolutionFails host a
     | none => false)

theorem refreshNode_definition (host : AlRoutingHost) (res : Bool)
    (d : AlRouteDefinition) (cap : String) (vis act : Bool)
    (props : List (String × String)) (base href : Option String) (cs : AlRouteList) :
    ((refreshNode host res (.mk d cap vis act props base href cs)).1).definition = d := by
  cases hA : d.action with
  | none => simp [refreshNode, hA, finishRefresh, AlRoute.definition]
  | some a =>
    simp only [refreshNode, hA]
    split
    · split
      · simp [finishRefresh, AlRoute.definition]
      · simp [AlRoute.definition]
    · simp [finishRefresh, AlRoute.definition]

/-- Every `refresh` of a node ends in one of two shapes: the early return
(`visible=false`, `activated=false`, flag `true`) or the finish path
(recomputed visibility, `childActivated` OR own-URL match, flag `false`);
in both the children are the refreshed children. -/
theorem refreshNode_cases (host : AlRoutingHost) (res : Bool)
    (d : AlRouteDefinition) (cap : String) (vis act : Bool)
    (props : List (String × String)) (base href : Option String) (cs : AlRouteList) :
    (∃ b1 h1, refreshNode host res (.mk d cap vis act props base href cs) =
        (.mk d cap false false props b1 h1 (refreshChildren host res cs).1, true))
    ∨ (∃ b1 h1, refreshNode host res (.mk d cap vis act props base href cs) =
        (.mk d cap (evalVisible host d)
          ((refreshChildren host res cs).2.1 || evaluateActivation host d.matches b1 h1)
          props b1 h1 (refreshChildren host res cs).1, false)) := by
  cases hA : d.action with
  | none =>
    right
    exact ⟨base, bubbleApply (refreshChildren host res cs).2.2 href, by
      simp [refreshNode, hA, finishRefresh]⟩
  | some a =>
    simp only [refreshNode, hA]
    split
    · split
      · right
        refine ⟨(evaluateHref host a base (bubbleApply (refreshChildren host res cs).2.2 href)).1,
          (evaluateHref host a base (bubbleApply (refreshChildren host res cs).2.2 href)).2.1, ?_⟩
        simp [finishRefresh]
      · left
        exact ⟨_, _, rfl⟩
    · right
      exact ⟨base, bubbleApply (refreshChildren host res cs).2.2 href, by
        simp [finishRefresh]⟩

theorem refreshChildren_get_of_left_false (host : AlRoutingHost) (res : Bool) :
    ∀ (cs : AlRouteList) (i : Nat),
      (∀ j sib, j < i → getChildAt cs j = some sib →
        (refreshNode host res sib).1.activated = false) →
      getChildAt (refreshChildren host res cs).1 i =
        (getChildAt cs i).map (fun c => (refreshNode host res c).1)
  | .nil, i => by
    intro _
    simp [refreshChildren, getChildAt]
  | .cons c rest, 0 => by
    intro _
    cases ha : (refreshNode host res c).1.activated <;>
      simp [refreshChildren, getChildAt, ha]
  | .cons c rest, n + 1 => by
    intro h
    have h0 : (refreshNode host res c).1.activated = false :=
      h 0 c (Nat.succ_pos n) rfl
    have ih := refreshChildren_get_of_left_false host res rest n
      (fun j sib hj hg => h (j + 1) sib (Nat.succ_lt_succ hj) (by simpa [getChildAt] using hg))
    simp [refreshChildren, getChildAt, h0, ih]

theorem refreshChildren_act_any (host : AlRoutingHost) (res : Bool) :
    ∀ cs : AlRouteList,
      (refreshChildren host res cs).2.1 = anyActivated (refreshChildren host res cs).1
  | .nil => by simp [refreshChildren, anyActivated]
  | .cons c rest => by
    have ih := refreshChildren_act_any host res rest
    cases ha : (refreshNode host res c).1.activated <;>
      simp [refreshChildren, anyActivated, ih, ha]

theorem anyActivated_of_get :
    ∀ (l : AlRouteList) (i : Nat) (c : AlRoute),
      getChildAt l i = some c → c.activated = true → anyActivated l = true
  | .nil, i, c => by
    intro h _
    simp [getChildAt] at h
  | .cons c0 rest, 0, c => by
    intro h ha
    simp only [getChildAt, Option.some.injEq] at h
    subst h
    simp [anyActivated, ha]
  | .cons c0 rest, n + 1, c => by
    intro h ha
    have ih := anyActivated_of_get rest n c (by simpa [getChildAt] using h) ha
    simp [anyActivated, ih]

theorem allInactive_anyActivated_false :
    ∀ l : AlRouteList,
      allNodesListB (fun m => !m.activated) l = true → anyActivated l = false
  | .nil => by intro _; rfl
  | .cons c rest => by
    intro h
    simp only [allNodesListB, Bool.and_eq_true] at h
    have hc : c.activated = false := by
      cases c with
      | mk d cap vis act props base href cs =>
        have := h.1
        simp only [allNodesB, Bool.and_eq_true] at this
        simpa [AlRoute.activated] using this.1
    have ih := allInactive_anyActivated_false rest h.2
    simp [anyActivated, hc, ih]

theorem strStartsWith_self (s : String) : strStartsWith s s = true := by
  simp [strStartsWith, List.isPrefixOf_iff_prefix]

theorem stripQuery_of_no_query (s : String) (h : '?' ∉ s.toList) :
    stripQuery s = s := by
  have hall : ∀ c ∈ s.toList, (fun c => decide (c ≠ '?')) c = true := by
    intro c hc
    simp only [decide_eq_true_eq, ne_eq]
    rintro rfl
    exact h hc
  have : s.toList.takeWhile (fun c => c ≠ '?') = s.toList :=
    List.takeWhile_eq_self_iff.mpr hall
  simp only [stripQuery, this]
  cases s
  rfl

/-- Under `refresh(true)`, a node whose definition does not short-circuit
(`shortCircuitsOn = false`) never takes the early return: its result is the
finish shape, with `activated = childActivated || ownUrlMatch`. -/
theorem refreshNode_noSC (host : AlRoutingHost) (d : AlRouteDefinition)
    (cap : String) (vis act : Bool) (props : List (String × String))
    (base href : Option String) (cs : AlRouteList)
    (hsc : shortCircuitsOn host d = false) :
    ∃ b1 h1, refreshNode host true (.mk d cap vis act props base href cs) =
      (.mk d cap (evalVisible host d)
        ((refreshChildren host true cs).2.1 || evaluateActivation host d.matches b1 h1)
        props b1 h1 (refreshChildren host true cs).1, false) := by
  cases hA : d.action with
  | none =>
    exact ⟨base, bubbleApply (refreshChildren host true cs).2.2 href, by
      simp [refreshNode, hA, finishRefresh]⟩
  | some a =>
    simp only [shortCircuitsOn, hA, Bool.and_eq_false_iff] at hsc
    cases hv : evalVisible host d with
    | false =>
      exact ⟨base, bubbleApply (refreshChildren host true cs).2.2 href, by
        simp [refreshNode, hA, hv, finishRefresh]⟩
    | true =>
      cases ht : (decide (a.type = "link")) with
      | false =>
        exact ⟨base, bubbleApply (refreshChildren host true cs).2.2 href, by
          simp only [refreshNode, hA, hv, ht, Bool.true_or, Bool.true_and, Bool.and_false,
            Bool.false_eq_true, if_false, finishRefresh]⟩
      | true =>
        have hfail : hrefResolutionFails host a = false := by
          rcases hsc with h | h
          · rw [hv] at h; cases h
          · rcases h with h2 | h2
            · rw [ht] at h2; cases h2
            · exact h2
        cases hN : host.getNode a.location with
        | none => simp [hrefResolutionFails, hN] at hfail
        | some node =>
          have hsub : (substPath host.routeParameters (actionPath a)).1 = false := by
            simpa [hrefResolutionFails, hN] using hfail
          refine ⟨some node.uri,
            some (node.uri ++ (substPath host.routeParameters (actionPath a)).2), ?_⟩
          simp only [refreshNode, hA, hv, ht, Bool.true_or, Bool.true_and, Bool.and_true,
            Bool.and_self, if_true, evaluateHref, hN, hsub, Bool.not_false, finishRefresh]

/-- The own-URL test succeeds when the node's `href` is exactly the
(nonempty, query-free) current URL and the current URL starts with the
node's `baseHREF`. -/
theorem evaluateActivation_exact (host : AlRoutingHost) (ms : Option (List String))
    (base : Option String)
    (hne : host.currentUrl ≠ "")
    (hqm : '?' ∉ host.currentUrl.toList)
    (hsw : strStartsWith host.currentUrl (jsOptStr base) = true) :
    evaluateActivation host ms base (some host.currentUrl) = true := by
  have h1 : strFalsy (some host.currentUrl) = false := by simp [strFalsy, hne]
  have h2 : jsOptStr (some host.currentUrl) = host.currentUrl := rfl
  simp only [evaluateActivation, h1, hsw, Bool.false_eq_true, if_false, if_true, h2]
  rw [stripQuery_of_no_query _ hqm]
  simp [strStartsWith_self]

/-- Exact-match activation propagates from a node to every ancestor on its
path, provided no node on the path short-circuits and, at every level, no
sibling to the LEFT of the path returns an activation — the JS `||` in the
`children.reduce` short-circuits, so a truthy earlier sibling would leave
the rest of the children (the path child included) unrefreshed. -/
theorem activation_on_path (host : AlRoutingHost)
    (hne : host.currentUrl ≠ "") (hqm : '?' ∉ host.currentUrl.toList) :
    ∀ (path : List Nat) (r n0 : AlRoute),
      nodeAt r path = some n0 →
      (∀ q m, q <+: path → nodeAt r q = some m →
        shortCircuitsOn host m.definition = false) →
      (∀ q j rest2 m, path = q ++ j :: rest2 → nodeAt r q = some m →
        ∀ jj sib, jj < j → getChildAt m.children jj = some sib →
          (refreshNode host true sib).1.activated = false) →
      (refreshNode host true n0).1.href = some host.currentUrl →
      strStartsWith host.currentUrl (jsOptStr (refreshNode host true n0).1.baseHREF) = true →
      ∀ q m, q <+: path → nodeAt (refreshNode host true r).1 q = some m →
        m.activated = true := by
  intro path
  induction path with
  | nil =>
    intro r n0 hnode hsc hls hhref hsw q m hq' hm
    have hq0 : q = [] := List.prefix_nil.mp hq'
    subst hq0
    simp only [nodeAt, Option.some.injEq] at hnode hm
    subst hnode
    subst hm
    cases r with
    | mk d cap vis act props base href cs =>
      have hsc0 : shortCircuitsOn host d = false := by
        have := hsc [] (.mk d cap vis act props base href cs) List.nil_prefix rfl
        simpa [AlRoute.definition] using this
      obtain ⟨b1, h1, heq⟩ := refreshNode_noSC host d cap vis act props base href cs hsc0
      have hact : (refreshNode host true (.mk d cap vis act props base href cs)).1.activated =
          ((refreshChildren host true cs).2.1 ||
            evaluateActivation host d.matches b1 h1) := by rw [heq]; rfl
      have hbase : (refreshNode host true (.mk d cap vis act props base href cs)).1.baseHREF =
          b1 := by rw [heq]; rfl
      have hhref1 : (refreshNode host true (.mk d cap vis act props base href cs)).1.href =
          h1 := by rw [heq]; rfl
      have hh1 : h1 = some host.currentUrl := hhref1.symm.trans hhref
      rw [hbase] at hsw
      rw [hact, hh1, evaluateActivation_exact host d.matches b1 hne hqm hsw]
      simp
  | cons i rest ih =>
    intro r n0 hnode hsc hls hhref hsw q m hq' hm
    cases r with
    | mk d cap vis act props base href cs =>
      have hsc0 : shortCircuitsOn host d = false := by
        have := hsc [] (.mk d cap vis act props base href cs) List.nil_prefix rfl
        simpa [AlRoute.definition] using this
      obtain ⟨b1, h1, heq⟩ := refreshNode_noSC host d cap vis act props base href cs hsc0
      have hch : (refreshNode host true (.mk d cap vis act props base href cs)).1.children =
          (refreshChildren host true cs).1 := by rw [heq]; rfl
      simp only [nodeAt, AlRoute.children] at hnode
      cases hg : getChildAt cs i with
      | none => rw [hg] at hnode; cases hnode
      | some c0 =>
        rw [hg] at hnode
        have hlsHere : ∀ jj sib, jj < i → getChildAt cs jj = some sib →
            (refreshNode host true sib).1.activated = false := by
          intro jj sib hj hgj
          exact hls [] i rest (.mk d cap vis act props base href cs) rfl rfl jj sib hj
            (by simpa [AlRoute.children] using hgj)
        have hgetR : getChildAt (refreshChildren host true cs).1 i =
            some ((refreshNode host true c0).1) := by
          rw [refreshChildren_get_of_left_false host true cs i hlsHere, hg]
          rfl
        have hscT : ∀ q2 m2, q2 <+: rest → nodeAt c0 q2 = some m2 →
            shortCircuitsOn host m2.definition = false := by
          intro q2 m2 hq2 hm2
          refine hsc (i :: q2) m2 ((List.cons_prefix_cons).mpr ⟨rfl, hq2⟩) ?_
          simp only [nodeAt, AlRoute.children, hg]
          exact hm2
        have hlsT : ∀ q2 j2 rest3 m2, rest = q2 ++ j2 :: rest3 → nodeAt c0 q2 = some m2 →
            ∀ jj sib, jj < j2 → getChildAt m2.children jj = some sib →
              (refreshNode host true sib).1.activated = false := by
          intro q2 j2 rest3 m2 hsplit hm2 jj sib hj hgj
          refine hls (i :: q2) j2 rest3 m2 (by rw [hsplit]; rfl) ?_ jj sib hj hgj
          simp only [nodeAt, AlRoute.children, hg]
          exact hm2
        have IH := ih c0 n0 hnode hscT hlsT hhref hsw
        have hstep : ∀ q2 : List Nat,
            nodeAt (refreshNode host true (.mk d cap vis act props base href cs)).1 (i :: q2) =
              nodeAt ((refreshNode host true c0).1) q2 := by
          intro q2
          conv_lhs => rw [nodeAt]
          rw [hch, hgetR]
        cases q with
        | nil =>
          simp only [nodeAt, Option.some.injEq] at hm
          subst hm
          have hact_c0 := IH [] ((refreshNode host true c0).1) List.nil_prefix rfl
          have hany := anyActivated_of_get (refreshChildren host true cs).1 i _ hgetR hact_c0
          have hrc := refreshChildren_act_any host true cs
          have hact : (refreshNode host true (.mk d cap vis act props base href cs)).1.activated =
              ((refreshChildren host true cs).2.1 ||
                evaluateActivation host d.matches b1 h1) := by rw [heq]; rfl
          rw [hact, hrc, hany]
          simp
        | cons j q2 =>
          obtain ⟨hj, hq2p⟩ := (List.cons_prefix_cons).mp hq'
          subst hj
          rw [hstep q2] at hm
          exact IH q2 m hq2p hm

/-- `allNodesB` holds in particular at the root node. -/
theorem allNodesB_head (p : AlRoute → Bool) :
    ∀ r : AlRoute, allNodesB p r = true → p r = true
  | .mk d cap vis act props base href cs => by
    intro h
    simp only [allNodesB, Bool.and_eq_true] at h
    exact h.1

mutual

/-- If a subtree starts with `activated = false` everywhere (as after
construction) and, after a refresh, every node of the resulting subtree
fails the own-URL match test (its `href`/`baseHREF` are unrelated to
`currentUrl`), then every node of the refreshed subtree has
`activated = false`.  (The pre-state hypothesis matters because the
short-circuiting `reduce` can leave later children unrefreshed, keeping
their previous `activated`.) -/
theorem unrelatedInactive_node (host : AlRoutingHost) (res : Bool) :
    ∀ r : AlRoute,
      allNodesB (fun m => !m.activated) r = true →
      allNodesB (fun m => !(evaluateActivation host m.definition.matches m.baseHREF m.href))
          ((refreshNode host res r).1) = true →
      allNodesB (fun m => !m.activated) ((refreshNode host res r).1) = true
  | .mk d cap vis act props base href cs => by
    intro hpre hpred
    have ihl := unrelatedInactive_list host res cs
    have hpreCs : allNodesListB (fun m => !m.activated) cs = true := by
      simp only [allNodesB, Bool.and_eq_true] at hpre
      exact hpre.2
    rcases refreshNode_cases host res d cap vis act props base href cs with
      ⟨b1, h1, heq⟩ | ⟨b1, h1, heq⟩
    · rw [heq] at hpred ⊢
      simp only [allNodesB, Bool.and_eq_true] at hpred ⊢
      exact ⟨by simp [AlRoute.activated], ihl hpreCs hpred.2⟩
    · rw [heq] at hpred ⊢
      simp only [allNodesB, Bool.and_eq_true] at hpred ⊢
      have hchildren := ihl hpreCs hpred.2
      have hev : evaluateActivation host d.matches b1 h1 = false := by
        have h0 := hpred.1
        simpa [AlRoute.definition, AlRoute.baseHREF, AlRoute.href] using h0
      have hany := allInactive_anyActivated_false _ hchildren
      have hrc := refreshChildren_act_any host res cs
      refine ⟨?_, hchildren⟩
      simp [AlRoute.activated, hev, hrc, hany]

theorem unrelatedInactive_list (host : AlRoutingHost) (res : Bool) :
    ∀ cs : AlRouteList,
      allNodesListB (fun m => !m.activated) cs = true →
      allNodesListB (fun m => !(evaluateActivation host m.definition.matches m.baseHREF m.href))
          ((refreshChildren host res cs).1) = true →
      allNodesListB (fun m => !m.activated) ((refreshChildren host res cs).1) = true
  | .nil => by
    intro _ h
    exact h
  | .cons c rest => by
    intro hpre hpost
    have ihn := unrelatedInactive_node host res c
    have ihl := unrelatedInactive_list host res rest
    simp only [allNodesListB, Bool.and_eq_true] at hpre
    cases ha : (refreshNode host res c).1.activated with
    | true =>
      exfalso
      simp only [refreshChildren, ha, if_true, allNodesListB, Bool.and_eq_true] at hpost
      have hnode := ihn hpre.1 hpost.1
      have hhead := allNodesB_head _ _ hnode
      rw [ha] at hhead
      exact Bool.noConfusion hhead
    | false =>
      simp only [refreshChildren, ha, Bool.false_eq_true, if_false, allNodesListB,
        Bool.and_eq_true] at hpost ⊢
      exact ⟨ihn hpre.1 hpost.1, ihl hpre.2 hpost.2⟩

end

theorem prefix_single_cases {α : Type} (q : List α) (i : α) (h : q <+: [i]) :
    q = [] ∨ q = [i] := by
  cases q with
  | nil => exact Or.inl rfl
  | cons j q2 =>
    obtain ⟨hj, hq2⟩ := (List.cons_prefix_cons).mp h
    subst hj
    have h0 : q2 = [] := List.prefix_nil.mp hq2
    subst h0
    exact Or.inr rfl

/-- C1 (amended): (1) when the host's `currentUrl` is nonempty, contains no
query string (`'?'`), and a node of the tree refreshes to an `href` equal
to `currentUrl` exactly with `currentUrl` starting with its refreshed
`baseHREF`, then — provided no node on the path short-circuits
(`shortCircuitsOn`: a visible link with an unknown location or an
unmatched path parameter, which forces `activated=false` instead) and no
sibling to the left of the path refreshes to activated (the
short-circuiting `reduce` would otherwise leave the path child
unrefreshed) — after `refresh(true)` that node and every one of its
ancestors on the path have `activated = true`; (2) a (sibling) subtree
that starts all-inactive and in which, after refresh, every node fails the
own-URL match test has `activated = false` at every node.  (The original
claim fails without the query-string proviso: an `href` containing `?` is
compared only after query stripping, so exact equality with `currentUrl`
does not activate.) -/
theorem claim_C1_exact_match_activation (host : AlRoutingHost) :
    ((host.currentUrl ≠ "") → ('?' ∉ host.currentUrl.toList) →
      ∀ (path : List Nat) (r n0 : AlRoute),
        nodeAt r path = some n0 →
        (∀ q m, q <+: path → nodeAt r q = some m →
          shortCircuitsOn host m.definition = false) →
        (∀ q j rest2 m, path = q ++ j :: rest2 → nodeAt r q = some m →
          ∀ jj sib, jj < j → getChildAt m.children jj = some sib →
            (refreshNode host true sib).1.activated = false) →
        (refreshNode host true n0).1.href = some host.currentUrl →
        strStartsWith host.currentUrl (jsOptStr (refreshNode host true n0).1.baseHREF) = true →
        ∀ q m, q <+: path → nodeAt (refreshNode host true r).1 q = some m →
          m.activated = true)
    ∧ (∀ (res : Bool) (r : AlRoute),
        allNodesB (fun m => !m.activated) r = true →
        allNodesB (fun m => !(evaluateActivation host m.definition.matches m.baseHREF m.href))
            ((refreshNode host res r).1) = true →
        allNodesB (fun m => !m.activated) ((refreshNode host res r).1) = true) :=
  ⟨fun hne hqm => activation_on_path host hne hqm,
   fun res r => unrelatedInactive_node host res r⟩

/-- Host whose current URL carries a query string and equals the child's
resolved href exactly. -/
def qHost : AlRoutingHost :=
  { currentUrl := "https://a/p?x=1"
    routeParameters := []
    evaluate := fun _ => false
    getNode := fun loc => if loc = some "app" then some ⟨"https://a"⟩ else none
    regexTest := fun _ _ => false }

def qChildDef : AlRouteDefinition :=
  .mk none "c" [] (some ⟨"link", some "app", some "/p?x=1", none⟩) none none .absent none

def qRootDef : AlRouteDefinition :=
  .mk none "root" [] none none none (.present (.cons qChildDef .nil)) none

/-- C1 counterexample: the child's resolved `href` equals `currentUrl`
EXACTLY (`"https://a/p?x=1"`), yet after refresh the child and its parent
have `activated = false`, because the own-URL test compares the
query-stripped href `"https://a/p"` against the full `currentUrl`. -/
theorem claim_C1_counterexample :
    ((nodeAt (newRootRoute qHost qRootDef) [0]).map AlRoute.href =
      some (some qHost.currentUrl))
    ∧ ((nodeAt (newRootRoute qHost qRootDef) [0]).map AlRoute.activated = some false)
    ∧ (newRootRoute qHost qRootDef).activated = false :=
  ⟨rfl, rfl, rfl⟩

/-- Host and menu for the C1 witness: two sibling links under a root
container; the current URL is exactly the first child's resolved href. -/
def w1Host : AlRoutingHost :=
  { currentUrl := "https://a/p"
    routeParameters := []
    evaluate := fun _ => false
    getNode := fun loc => if loc = some "app" then some ⟨"https://a"⟩ else none
    regexTest := fun _ _ => false }

def w1C1Def : AlRouteDefinition :=
  .mk none "c1" [] (some ⟨"link", some "app", some "/p", none⟩) none none .absent none

def w1C2Def : AlRouteDefinition :=
  .mk none "c2" [] (some ⟨"link", some "app", some "/q", none⟩) none none .absent none

def w1Def : AlRouteDefinition :=
  .mk none "root" [] none none none (.present (.cons w1C1Def (.cons w1C2Def .nil))) none

def w1Tree : AlRoute := (refreshNode w1Host true (buildRouteTree w1Def)).1

/-- C1 witness: on the concrete two-sibling menu, the exact-match child and
the root are activated, and the unrelated sibling subtree is fully
inactive. -/
theorem claim_C1_exact_match_activation_witness :
    (w1Host.currentUrl ≠ "")
    ∧ ('?' ∉ w1Host.currentUrl.toList)
    ∧ w1Tree.activated = true
    ∧ ((nodeAt w1Tree [0]).map AlRoute.activated = some true)
    ∧ allNodesB (fun m => !m.activated)
        ((refreshNode w1Host true (buildRouteTree w1C2Def)).1) = true := by
  have hscAll : ∀ q m, q <+: [0] → nodeAt (buildRouteTree w1Def) q = some m →
      shortCircuitsOn w1Host m.definition = false := by
    intro q m hq hm
    rcases prefix_single_cases q 0 hq with rfl | rfl
    · have hm2 : buildRouteTree w1Def = m := by simpa [nodeAt] using hm
      subst hm2
      decide
    · have hm2 : buildRouteTree w1C1Def = m := by
        rw [show nodeAt (buildRouteTree w1Def) [0] = some (buildRouteTree w1C1Def) from rfl]
          at hm
        simpa using hm
      subst hm2
      decide
  have hlsAll : ∀ q j rest2 m, ([0] : List Nat) = q ++ j :: rest2 →
      nodeAt (buildRouteTree w1Def) q = some m →
      ∀ jj sib, jj < j → getChildAt m.children jj = some sib →
        (refreshNode w1Host true sib).1.activated = false := by
    intro q j rest2 m hsplit hm jj sib hj hgj
    cases q with
    | nil =>
      simp only [List.nil_append, List.cons.injEq] at hsplit
      omega
    | cons q0 qtail =>
      simp only [List.cons_append, List.cons.injEq] at hsplit
      exact absurd hsplit.2 (by simp)
  have main := (claim_C1_exact_match_activation w1Host).1 (by decide) (by decide)
    [0] (buildRouteTree w1Def) (buildRouteTree w1C1Def) rfl hscAll hlsAll rfl (by decide)
  refine ⟨by decide, by decide, ?_, ?_, ?_⟩
  · exact main [] w1Tree List.nil_prefix rfl
  · have hc := main [0] ((refreshNode w1Host true (buildRouteTree w1C1Def)).1)
      (List.prefix_refl _) rfl
    rw [show nodeAt w1Tree [0] =
      some ((refreshNode w1Host true (buildRouteTree w1C1Def)).1) from rfl]
    simp [hc]
  · exact (claim_C1_exact_match_activation w1Host).2 true (buildRouteTree w1C2Def)
      (by decide) (by decide)
